import Mathlib

set_option maxRecDepth 100000

/-!
Verification model of `scripts/zmq_sniffer.py`.

The script receives multi-frame ZMQ messages (each frame a byte string),
prints a topic delimiter from frame 0, JSON-decodes frame 1 when present and
prints a bounded summary, and loops until interrupted.  We embed the
per-message behaviour as a pure function from the frame list (bytes as
`List Nat`) to the list of printed lines (each line a list of Unicode code
points) together with a flag saying whether the iteration completed without
raising an uncaught exception.  The receive loop is embedded as a function
over a list of events (message delivery or interrupt at the blocking
receive), returning the printed lines and the process exit code.

Modelling notes, matching CPython semantics used by the script:
* `bytes.decode('utf-8')` is strict UTF-8 (overlongs, surrogates and
  out-of-range code points rejected); a failure raises `UnicodeDecodeError`,
  which the script does not catch.
* `json.loads` follows Python's default scanner: it accepts `NaN`,
  `Infinity` and `-Infinity`, rejects trailing data, requires string object
  keys, and lets a duplicate key's last value win while keeping the first
  occurrence's position.  JSON numbers are kept as their source token
  (`NaN`/`Infinity` as their Python `str()` forms `nan`/`inf`); Python's
  float re-rendering of non-canonical tokens such as `1e3` is not modelled —
  no claim depends on it, since the claims use canonical tokens only.
* `str()` of a decoded value: strings render verbatim, numbers as their
  token, `None`/`True`/`False` as in Python, and containers via Python
  `repr` (string escaping modelled for ASCII controls; printability classes
  of higher code points are not refined further — no claim exercises them).
* The exception text of `json.JSONDecodeError` interpolated into the
  `"  JSON parse error: {e}"` line is not modelled; the line is represented
  by its fixed prefix.  No claim constrains that text.
-/

/-- Code points of a string literal. -/
def cps (s : String) : List Nat := s.data.map Char.toNat

/-- Decimal digits of a natural number, as code points (accumulator form). -/
def natCpsGo : Nat → Nat → List Nat → List Nat
  | 0, _, acc => acc
  | fuel+1, n, acc =>
    let d := 0x30 + n % 10
    if n < 10 then d :: acc else natCpsGo fuel (n / 10) (d :: acc)

/-- Decimal rendering of a natural number as code points, as Python prints an `int`. -/
def natCps (n : Nat) : List Nat := natCpsGo (n + 1) n []

/-- Continuation byte test for UTF-8. -/
def isCont (b : Nat) : Bool := 0x80 ≤ b && b < 0xC0

/-- Strict UTF-8 decoding of a byte list into code points, with fuel.
Mirrors CPython `bytes.decode('utf-8')`: rejects stray continuation bytes,
overlong encodings, surrogate code points and values above `0x10FFFF`. -/
def utf8dGo : Nat → List Nat → Option (List Nat)
  | _, [] => some []
  | 0, _ :: _ => none
  | fuel+1, b :: bs =>
    if b < 0x80 then (utf8dGo fuel bs).map (fun t => b :: t)
    else if b < 0xC2 then none
    else if b < 0xE0 then
      match bs with
      | c1 :: bs1 =>
        if isCont c1 then
          (utf8dGo fuel bs1).map (fun t => ((b - 0xC0) * 0x40 + (c1 - 0x80)) :: t)
        else none
      | _ => none
    else if b < 0xF0 then
      match bs with
      | c1 :: c2 :: bs2 =>
        if isCont c1 && isCont c2 then
          let cp := (b - 0xE0) * 0x1000 + (c1 - 0x80) * 0x40 + (c2 - 0x80)
          if 0x800 ≤ cp && (cp < 0xD800 || 0xE000 ≤ cp) then
            (utf8dGo fuel bs2).map (fun t => cp :: t)
          else none
        else none
      | _ => none
    else if b < 0xF5 then
      match bs with
      | c1 :: c2 :: c3 :: bs3 =>
        if isCont c1 && isCont c2 && isCont c3 then
          let cp := (b - 0xF0) * 0x40000 + (c1 - 0x80) * 0x1000 +
            (c2 - 0x80) * 0x40 + (c3 - 0x80)
          if 0x10000 ≤ cp && cp ≤ 0x10FFFF then
            (utf8dGo fuel bs3).map (fun t => cp :: t)
          else none
        else none
      | _ => none
    else none

/-- Strict UTF-8 decoding of a byte list (`bytes.decode('utf-8')`). -/
def utf8d (bs : List Nat) : Option (List Nat) := utf8dGo bs.length bs

/-- UTF-8 encoding of one code point. -/
def utf8e1 (c : Nat) : List Nat :=
  if c < 0x80 then [c]
  else if c < 0x800 then [0xC0 + c / 0x40, 0x80 + c % 0x40]
  else if c < 0x10000 then
    [0xE0 + c / 0x1000, 0x80 + (c / 0x40) % 0x40, 0x80 + c % 0x40]
  else
    [0xF0 + c / 0x40000, 0x80 + (c / 0x1000) % 0x40,
     0x80 + (c / 0x40) % 0x40, 0x80 + c % 0x40]

/-- UTF-8 bytes of a string literal, for building concrete wire frames. -/
def bytesOf (s : String) : List Nat := (cps s).flatMap utf8e1

mutual
/-- Decoded JSON value, as produced by `json.loads`.  Strings are code
point lists (so lone surrogates from `\uXXXX` escapes are representable,
as in Python); numbers keep their source token. -/
inductive JVal where
  | jnull
  | jbool (b : Bool)
  | jnum (tok : List Nat)
  | jstr (s : List Nat)
  | jarr (xs : JArr)
  | jobj (kvs : JObj)
/-- JSON array spine. -/
inductive JArr where
  | nil
  | cons (v : JVal) (t : JArr)
/-- JSON object spine: insertion-ordered key/value pairs with unique keys,
like a Python `dict`. -/
inductive JObj where
  | nil
  | cons (k : List Nat) (v : JVal) (t : JObj)
end

/-- Membership test for a key in a decoded object (`key in dict`). -/
def hasKey : JObj → List Nat → Bool
  | .nil, _ => false
  | .cons k1 _ t, k => k1 == k || hasKey t k

/-- Lookup with default (`dict.get(key, default)`); keys are unique, so the
first match is the binding. -/
def jget : JObj → List Nat → JVal → JVal
  | .nil, _, d => d
  | .cons k1 v t, k, d => if k1 == k then v else jget t k d

/-- Drop the binding of a key, if present. -/
def objRemove : List Nat → JObj → JObj
  | _, .nil => .nil
  | k, .cons k1 v t => if k1 == k then objRemove k t else .cons k1 v (objRemove k t)

/-- Combine a parsed member with the members parsed after it, with `dict`
duplicate-key semantics: the first occurrence keeps its position, the last
occurrence's value wins. -/
def objPut (k : List Nat) (v : JVal) (t : JObj) : JObj :=
  if hasKey t k then .cons k (jget t k v) (objRemove k t) else .cons k v t

/-- JSON whitespace accepted by the Python scanner. -/
def isWs (c : Nat) : Bool := c == 0x20 || c == 9 || c == 10 || c == 13

/-- Drop leading JSON whitespace. -/
def skipWs : List Nat → List Nat
  | [] => []
  | c :: t => if isWs c then skipWs t else c :: t

/-- Does the code point list start with the given pattern? -/
def startsWithCp : List Nat → List Nat → Bool
  | [], _ => true
  | _ :: _, [] => false
  | p :: pt, c :: ct => p == c && startsWithCp pt ct

/-- ASCII decimal digit test. -/
def isDigit (c : Nat) : Bool := 0x30 ≤ c && c ≤ 0x39

/-- Value of one hex digit, upper or lower case. -/
def hexVal (c : Nat) : Option Nat :=
  if isDigit c then some (c - 0x30)
  else if 0x41 ≤ c && c ≤ 0x46 then some (c - 0x37)
  else if 0x61 ≤ c && c ≤ 0x66 then some (c - 0x57)
  else none

/-- Four hex digits, as in a `\uXXXX` escape. -/
def hex4 : List Nat → Option (Nat × List Nat)
  | a :: b :: c :: d :: r =>
    match hexVal a, hexVal b, hexVal c, hexVal d with
    | some x, some y, some z, some w => some (((x * 16 + y) * 16 + z) * 16 + w, r)
    | _, _, _, _ => none
  | _ => none

/-- Longest digit prefix and the remainder. -/
def takeDigits : List Nat → List Nat × List Nat
  | [] => ([], [])
  | c :: t =>
    if isDigit c then
      let (ds, r) := takeDigits t
      (c :: ds, r)
    else ([], c :: t)

/-- Integer part of a JSON number: `0` or a nonzero digit followed by digits
(leading zeros rejected, as in Python's scanner). -/
def parseIntPart : List Nat → Option (List Nat × List Nat)
  | [] => none
  | c :: r =>
    if c == 0x30 then some ([0x30], r)
    else if 0x31 ≤ c && c ≤ 0x39 then
      let (ds, r2) := takeDigits r
      some (c :: ds, r2)
    else none

/-- Optional fractional part `.digits`; consumed only when fully present,
as with the scanner's regular expression. -/
def parseFrac (cs : List Nat) : List Nat × List Nat :=
  match cs with
  | 0x2E :: r =>
    match takeDigits r with
    | (d :: ds, r2) => (0x2E :: d :: ds, r2)
    | ([], _) => ([], cs)
  | _ => ([], cs)

/-- Optional exponent part `[eE][+-]?digits`; consumed only when fully present. -/
def parseExp (cs : List Nat) : List Nat × List Nat :=
  match cs with
  | e :: r =>
    if e == 0x45 || e == 0x65 then
      match r with
      | s :: r1 =>
        if s == 0x2B || s == 0x2D then
          match takeDigits r1 with
          | (d :: ds, r2) => (e :: s :: d :: ds, r2)
          | ([], _) => ([], cs)
        else
          match takeDigits r with
          | (d :: ds, r2) => (e :: d :: ds, r2)
          | ([], _) => ([], cs)
      | [] => ([], cs)
    else ([], cs)
  | [] => ([], cs)

/-- A JSON number token: optional sign, integer part, optional fraction and
exponent.  Returns the token's code points and the rest of the input. -/
def parseNumber (cs : List Nat) : Option (List Nat × List Nat) :=
  let (sgn, cs1) :=
    match cs with
    | 0x2D :: r => ([0x2D], r)
    | _ => (([] : List Nat), cs)
  match parseIntPart cs1 with
  | none => none
  | some (ip, cs2) =>
    let (fp, cs3) := parseFrac cs2
    let (ep, cs4) := parseExp cs3
    some (sgn ++ ip ++ fp ++ ep, cs4)

/-- Body of a JSON string after the opening quote, with fuel.  Handles the
standard escapes, `\uXXXX` with surrogate-pair combination (a lone
surrogate is kept, as Python does), rejects raw control characters. -/
def parseStr : Nat → List Nat → Option (List Nat × List Nat)
  | 0, _ => none
  | _+1, [] => none
  | fuel+1, c :: r =>
    if c == 0x22 then some ([], r)
    else if c == 0x5C then
      match r with
      | [] => none
      | e :: r2 =>
        let esc : Option (Nat × List Nat) :=
          if e == 0x22 then some (0x22, r2)
          else if e == 0x5C then some (0x5C, r2)
          else if e == 0x2F then some (0x2F, r2)
          else if e == 0x62 then some (8, r2)
          else if e == 0x66 then some (12, r2)
          else if e == 0x6E then some (10, r2)
          else if e == 0x72 then some (13, r2)
          else if e == 0x74 then some (9, r2)
          else if e == 0x75 then
            match hex4 r2 with
            | some (h, r3) =>
              if 0xD800 ≤ h && h < 0xDC00 then
                match r3 with
                | 0x5C :: 0x75 :: r4 =>
                  match hex4 r4 with
                  | some (lo, r5) =>
                    if 0xDC00 ≤ lo && lo < 0xE000 then
                      some (0x10000 + (h - 0xD800) * 0x400 + (lo - 0xDC00), r5)
                    else some (h, r3)
                  | none => some (h, r3)
                | _ => some (h, r3)
              else some (h, r3)
            | none => none
          else none
        match esc with
        | some (cp, r3) =>
          match parseStr fuel r3 with
          | some (s, r4) => some (cp :: s, r4)
          | none => none
        | none => none
    else if c < 0x20 then none
    else
      match parseStr fuel r with
      | some (s, r2) => some (c :: s, r2)
      | none => none

mutual
/-- One JSON value at the head of the input (Python scanner semantics:
literals `null`/`true`/`false` and the extensions `NaN`, `Infinity`,
`-Infinity`, which Python stores as floats rendering as `nan`, `inf`,
`-inf`). -/
def parseValue : Nat → List Nat → Option (JVal × List Nat)
  | 0, _ => none
  | fuel+1, cs =>
    match cs with
    | [] => none
    | c :: rest =>
      if c == 0x22 then
        match parseStr (rest.length + 1) rest with
        | some (s, r) => some (.jstr s, r)
        | none => none
      else if c == 0x7B then parseObjBody fuel (skipWs rest)
      else if c == 0x5B then parseArrBody fuel (skipWs rest)
      else if startsWithCp (cps "null") cs then some (.jnull, cs.drop 4)
      else if startsWithCp (cps "true") cs then some (.jbool true, cs.drop 4)
      else if startsWithCp (cps "false") cs then some (.jbool false, cs.drop 5)
      else if startsWithCp (cps "NaN") cs then some (.jnum (cps "nan"), cs.drop 3)
      else if startsWithCp (cps "Infinity") cs then some (.jnum (cps "inf"), cs.drop 8)
      else if startsWithCp (cps "-Infinity") cs then some (.jnum (cps "-inf"), cs.drop 9)
      else
        match parseNumber cs with
        | some (tok, r) => some (.jnum tok, r)
        | none => none
/-- Array body after `[` with leading whitespace skipped. -/
def parseArrBody : Nat → List Nat → Option (JVal × List Nat)
  | 0, _ => none
  | fuel+1, cs =>
    match cs with
    | 0x5D :: r => some (.jarr .nil, r)
    | _ =>
      match parseElems fuel cs with
      | some (xs, r) => some (.jarr xs, r)
      | none => none
/-- Nonempty comma-separated element list, ending at `]`. -/
def parseElems : Nat → List Nat → Option (JArr × List Nat)
  | 0, _ => none
  | fuel+1, cs =>
    match parseValue fuel cs with
    | some (v, r) =>
      match skipWs r with
      | 0x2C :: r2 =>
        match parseElems fuel (skipWs r2) with
        | some (t, r3) => some (.cons v t, r3)
        | none => none
      | 0x5D :: r2 => some (.cons v .nil, r2)
      | _ => none
    | none => none
/-- Object body after the opening brace with leading whitespace skipped. -/
def parseObjBody : Nat → List Nat → Option (JVal × List Nat)
  | 0, _ => none
  | fuel+1, cs =>
    match cs with
    | 0x7D :: r => some (.jobj .nil, r)
    | _ =>
      match parseMembers fuel cs with
      | some (kvs, r) => some (.jobj kvs, r)
      | none => none
/-- Nonempty comma-separated member list, ending at the closing brace.
Keys must be strings; duplicates are merged via `objPut`. -/
def parseMembers : Nat → List Nat → Option (JObj × List Nat)
  | 0, _ => none
  | fuel+1, cs =>
    match cs with
    | 0x22 :: r1 =>
      match parseStr (r1.length + 1) r1 with
      | some (k, r2) =>
        match skipWs r2 with
        | 0x3A :: r3 =>
          match parseValue fuel (skipWs r3) with
          | some (v, r4) =>
            match skipWs r4 with
            | 0x2C :: r5 =>
              match parseMembers fuel (skipWs r5) with
              | some (t, r6) => some (objPut k v t, r6)
              | none => none
            | 0x7D :: r5 => some (.cons k v .nil, r5)
            | _ => none
          | none => none
        | _ => none
      | none => none
    | _ => none
end

/-- Embedding of `json.loads` on the decoded text: skip surrounding
whitespace, parse one value, reject trailing data. -/
def jsonDecode (cs : List Nat) : Option JVal :=
  match parseValue (4 * cs.length + 4) (skipWs cs) with
  | some (v, r) => if skipWs r = [] then some v else none
  | none => none

/-- Code point of a hex digit (lowercase, as Python escapes use). -/
def hexCp (n : Nat) : Nat := if n < 10 then 0x30 + n else 0x57 + n

/-- Escape one character of a `str` for Python `repr`, given the chosen
quote character: backslash and the quote are escaped, tab/newline/return
get their short escapes, other ASCII control characters and DEL become
`\xNN`. -/
def escTextChar (q c : Nat) : List Nat :=
  if c == 0x5C then [0x5C, 0x5C]
  else if c == q then [0x5C, q]
  else if c == 9 then [0x5C, 0x74]
  else if c == 10 then [0x5C, 0x6E]
  else if c == 13 then [0x5C, 0x72]
  else if c < 0x20 || c == 0x7F then [0x5C, 0x78, hexCp (c / 16), hexCp (c % 16)]
  else [c]

/-- Python `repr` of a `str`: single quotes, unless the string contains a
single quote and no double quote. -/
def pyQuote (s : List Nat) : List Nat :=
  let q := if s.contains 0x27 && !(s.contains 0x22) then 0x22 else 0x27
  q :: s.flatMap (escTextChar q) ++ [q]

/-- Escape one byte for Python `bytes` repr: like text, but every byte
outside printable ASCII becomes `\xNN`. -/
def escByteChar (q c : Nat) : List Nat :=
  if c == 0x5C then [0x5C, 0x5C]
  else if c == q then [0x5C, q]
  else if c == 9 then [0x5C, 0x74]
  else if c == 10 then [0x5C, 0x6E]
  else if c == 13 then [0x5C, 0x72]
  else if c < 0x20 || 0x7F ≤ c then [0x5C, 0x78, hexCp (c / 16), hexCp (c % 16)]
  else [c]

/-- Python `repr` of a `bytes` object: `b` prefix, quote chosen as for
`str`, bytes escaped. -/
def pyBytesRepr (bs : List Nat) : List Nat :=
  let q := if bs.contains 0x27 && !(bs.contains 0x22) then 0x22 else 0x27
  0x62 :: q :: bs.flatMap (escByteChar q) ++ [q]

mutual
/-- Python `repr` of a decoded JSON value. -/
def pyRepr : JVal → List Nat
  | .jnull => cps "None"
  | .jbool true => cps "True"
  | .jbool false => cps "False"
  | .jnum tok => tok
  | .jstr s => pyQuote s
  | .jarr xs => 0x5B :: pyReprArr xs ++ [0x5D]
  | .jobj kvs => 0x7B :: pyReprObj kvs ++ [0x7D]
/-- Comma-joined `repr` of array elements. -/
def pyReprArr : JArr → List Nat
  | .nil => []
  | .cons v .nil => pyRepr v
  | .cons v (.cons w t) => pyRepr v ++ cps ", " ++ pyReprArr (.cons w t)
/-- Comma-joined `repr` of object members. -/
def pyReprObj : JObj → List Nat
  | .nil => []
  | .cons k v .nil => pyQuote k ++ cps ": " ++ pyRepr v
  | .cons k v (.cons k2 v2 t) =>
    pyQuote k ++ cps ": " ++ pyRepr v ++ cps ", " ++ pyReprObj (.cons k2 v2 t)
end

/-- Python `str()` of a decoded JSON value, as interpolated by an f-string:
strings verbatim, everything else as its `repr`. -/
def pyStr : JVal → List Nat
  | .jstr s => s
  | v => pyRepr v

/-- Length of a decoded array. -/
def jlen : JArr → Nat
  | .nil => 0
  | .cons _ t => jlen t + 1

/-- Number of keys of a decoded object. -/
def jolen : JObj → Nat
  | .nil => 0
  | .cons _ _ t => jolen t + 1

/-- First `n` elements of a decoded array. -/
def jtake : Nat → JArr → JArr
  | 0, _ => .nil
  | _, .nil => .nil
  | n+1, .cons v t => .cons v (jtake n t)

/-- Python `len()` on a decoded value: defined for lists, strings and
dicts; `None`, booleans and numbers raise `TypeError` (modelled as `none`). -/
def pyLen : JVal → Option Nat
  | .jarr l => some (jlen l)
  | .jstr s => some s.length
  | .jobj kvs => some (jolen kvs)
  | _ => none

/-- Iterating a sliced string yields its characters as one-character strings. -/
def strRows : List Nat → JArr
  | [] => .nil
  | c :: t => .cons (.jstr [c]) (strRows t)

/-- Python `rows[:3]` followed by iteration: lists are truncated, strings
yield up to 3 one-character strings, dicts raise `TypeError` on slicing
(modelled as `none`); other values cannot reach this point because `len()`
already raised. -/
def slice3 : JVal → Option JArr
  | .jarr l => some (jtake 3 l)
  | .jstr s => some (strRows (s.take 3))
  | _ => none

/-- The topic delimiter line `=== TOPIC: {topic} ===`. -/
def topicLine (t : List Nat) : List Nat := cps "=== TOPIC: " ++ t ++ cps " ==="

/-- The summary line `Underlying: {u}, Expiry: {e}, Rows: {n}`. -/
def summaryLine (u e : JVal) (n : Nat) : List Nat :=
  cps "Underlying: " ++ pyStr u ++ cps ", Expiry: " ++ pyStr e ++
    cps ", Rows: " ++ natCps n

/-- A row detail line `  Strike {s}: Call delta={cd}, Put delta={pd}`. -/
def rowLineOf (s cd pd : JVal) : List Nat :=
  cps "  Strike " ++ pyStr s ++ cps ": Call delta=" ++ pyStr cd ++
    cps ", Put delta=" ++ pyStr pd

/-- The remainder line `  ... and {k} more rows`. -/
def moreLine (k : Nat) : List Nat := cps "  ... and " ++ natCps k ++ cps " more rows"

/-- Fixed prefix of the `  JSON parse error: {e}` line; the interpolated
exception text is not modelled. -/
def errLine : List Nat := cps "  JSON parse error:"

/-- The `  Raw: {msg[1][:200]}...` line: Python renders the sliced `bytes`
object via its repr, `b` prefix and quotes included. -/
def rawLine (f1 : List Nat) : List Nat :=
  cps "  Raw: " ++ pyBytesRepr (f1.take 200) ++ cps "..."

/-- Processing of one row of the `rows` sequence, lines 43-50 of the
script: `row.get` requires a dict row, `call.get`/`put.get` require dict
(or defaulted `{}`) call/put values; otherwise an uncaught
`AttributeError` is raised (`none`). -/
def rowEmit : JVal → Option (List Nat) :=
  fun row =>
    match row with
    | .jobj rv =>
      let strike := jget rv (cps "strike") (.jstr (cps "?"))
      match jget rv (cps "call") (.jobj .nil) with
      | .jobj cv =>
        match jget rv (cps "put") (.jobj .nil) with
        | .jobj pv =>
          some (rowLineOf strike (jget cv (cps "delta") (.jstr (cps "-")))
            (jget pv (cps "delta") (.jstr (cps "-"))))
        | _ => none
      | _ => none
    | _ => none

/-- Row line under the assumption the row is well-formed (default `[]`
never shows when `rowEmit` succeeds). -/
def rowLn (row : JVal) : List Nat := (rowEmit row).getD []

/-- Row lines of a well-formed prefix of the rows. -/
def rowsLines : JArr → List (List Nat)
  | .nil => []
  | .cons r t => rowLn r :: rowsLines t

/-- Bool-valued success of processing one row. -/
def rowOKb (row : JVal) : Bool := (rowEmit row).isSome

/-- Does the predicate hold of every element of the array? -/
def jall (p : JVal → Bool) : JArr → Bool
  | .nil => true
  | .cons r t => p r && jall p t

/-- Print the row loop's lines in order; a row that raises keeps the lines
already printed and stops with failure. -/
def emitRows : JArr → List (List Nat) × Bool
  | .nil => ([], true)
  | .cons r t =>
    match rowEmit r with
    | none => ([], false)
    | some ln =>
      let (ls, ok) := emitRows t
      (ln :: ls, ok)

/-- Lines printed for a successfully JSON-decoded payload (lines 35-53 of
the script), plus whether the iteration completed.  A non-dict payload
raises at `data.get`; a `rows` value without `len()` raises before the
summary is printed; a dict `rows` raises at slicing after the summary;
malformed rows raise inside the loop after earlier rows printed. -/
def processPayload : JVal → List (List Nat) × Bool
  | .jobj kvs =>
    let u := jget kvs (cps "underlying") (.jstr (cps "?"))
    let e := jget kvs (cps "expiry") (.jstr (cps "?"))
    let rows := jget kvs (cps "rows") (.jarr .nil)
    match pyLen rows with
    | none => ([], false)
    | some n =>
      let summary := summaryLine u e n
      match slice3 rows with
      | none => ([summary], false)
      | some rs =>
        match emitRows rs with
        | (rls, true) =>
          (summary :: rls ++ (if 3 < n then [moreLine (n - 3)] else []), true)
        | (rls, false) => (summary :: rls, false)
  | _ => ([], false)

/-- Topic extraction, line 28: frame 0 decoded as UTF-8, or the empty
string when no frames arrived; `none` models an uncaught
`UnicodeDecodeError`. -/
def topicOf : List (List Nat) → Option (List Nat)
  | [] => some []
  | f :: _ => utf8d f

/-- Lines printed for one received message (lines 27-59 of the script) and
whether the loop body completed without an uncaught exception. -/
def processMsg (msg : List (List Nat)) : List (List Nat) × Bool :=
  match topicOf msg with
  | none => ([], false)
  | some t =>
    let l0 := topicLine t
    match msg with
    | _ :: f1 :: _ =>
      match utf8d f1 with
      | none => ([l0], false)
      | some s =>
        match jsonDecode s with
        | none => ([l0, errLine, rawLine f1, []], true)
        | some v =>
          match processPayload v with
          | (pl, true) => (l0 :: pl ++ [[]], true)
          | (pl, false) => (l0 :: pl, false)
    | _ => ([l0, []], true)

/-- One observable event at the loop's blocking receive: either a
multipart message is delivered, or `KeyboardInterrupt` is raised there. -/
inductive Ev where
  | m (frames : List (List Nat))
  | intr

/-- The receive loop, lines 25-63: messages are processed in order; an
uncaught exception terminates the process with a nonzero exit code; an
interrupt at the receive prints a blank line then `Stopped.` and returns
from `main` (exit code 0).  The result is the printed lines and the exit
code (`none` while the loop is still blocked waiting for more events). -/
def runLoop : List Ev → List (List Nat) × Option Nat
  | [] => ([], none)
  | .intr :: _ => ([[], cps "Stopped."], some 0)
  | .m fs :: rest =>
    match processMsg fs with
    | (ls, true) =>
      let (ls2, e) := runLoop rest
      (ls ++ ls2, e)
    | (ls, false) => (ls, some 1)

/-- Endpoint selection from `sys.argv` (line 13): `argv[1]` when present,
else the fixed default. -/
def chooseAddress : List String → String
  | _ :: a :: _ => a
  | _ => "tcp://localhost:5556"

/-- Does `pat` occur as a contiguous run inside the line? -/
def containsSeq : List Nat → List Nat → Bool
  | pat, [] => startsWithCp pat []
  | pat, c :: t => startsWithCp pat (c :: t) || containsSeq pat t

/-- Did the payload decode to a structured record (a dict)? -/
def isRecord : Option JVal → Bool
  | some (.jobj _) => true
  | _ => false

/-- Python length of the decoded payload's `rows` value (default `[]`),
when the payload is a record and `len()` is defined on that value. -/
def decodedRowsLen (cs : List Nat) : Option Nat :=
  match jsonDecode cs with
  | some (.jobj kvs) => pyLen (jget kvs (cps "rows") (.jarr .nil))
  | _ => none

/-- The spec scenario message: topic frame and a one-row options payload. -/
def msgScenario : List (List Nat) :=
  [bytesOf "report.options",
   bytesOf "\x7b\"underlying\":\"SPX\",\"expiry\":\"2024-01-19\",\"rows\":[\x7b\"strike\":4500,\"call\":\x7b\"delta\":0.5\x7d,\"put\":\x7b\"delta\":-0.5\x7d\x7d]\x7d"]

/-- A message whose payload is valid JSON, a record, with a `rows` array of
four numbers (not row records). -/
def msgNumRows : List (List Nat) :=
  [bytesOf "report.options", bytesOf "\x7b\"rows\":[1,2,3,4]\x7d"]

/-- A message whose payload frame is not UTF-8 (a stray continuation byte). -/
def msgBadUtf8 : List (List Nat) := [bytesOf "report.options", [0xFF]]

/-- The spec scenario message with an unparseable payload. -/
def msgNotJson : List (List Nat) := [bytesOf "report.options", bytesOf "not json"]

/-- A five-empty-rows payload, exercising the remainder line. -/
def msgFive : List (List Nat) :=
  [bytesOf "report.options",
   bytesOf "\x7b\"rows\":[\x7b\x7d,\x7b\x7d,\x7b\x7d,\x7b\x7d,\x7b\x7d]\x7d"]

/-- Decoded `rows` array of `msgFive`. -/
def rowsFive : JArr :=
  .cons (.jobj .nil) (.cons (.jobj .nil) (.cons (.jobj .nil)
    (.cons (.jobj .nil) (.cons (.jobj .nil) .nil))))

/-- Decoded payload record of `msgFive`. -/
def kvsFive : JObj := .cons (cps "rows") (.jarr rowsFive) .nil

/-- A one-empty-row payload message, for the placeholder claim. -/
def msgOneEmptyRow : List (List Nat) :=
  [bytesOf "report.options", bytesOf "\x7b\"rows\":[\x7b\x7d]\x7d"]

/-- Element of a decoded array at an index. -/
def jidx : JArr → Nat → Option JVal
  | .nil, _ => none
  | .cons v _, 0 => some v
  | .cons _ t, n+1 => jidx t n

/-- First row of the mixed-absence payload: `strike` and the call `delta`
present, `put` present but without `delta`. -/
def rvMixed : JObj :=
  .cons (cps "strike") (.jnum (cps "1"))
    (.cons (cps "call") (.jobj (.cons (cps "delta") (.jnum (cps "2")) .nil))
      (.cons (cps "put") (.jobj .nil) .nil))

/-- Call object of the mixed payload's first row. -/
def cvMixed : JObj := .cons (cps "delta") (.jnum (cps "2")) .nil

/-- Rows of the mixed payload: the detailed first row, then an empty row. -/
def rowsMixed : JArr := .cons (.jobj rvMixed) (.cons (.jobj .nil) .nil)

/-- Decoded mixed payload: `underlying` present, `expiry` absent. -/
def kvsMixed : JObj :=
  .cons (cps "underlying") (.jstr (cps "SPX"))
    (.cons (cps "rows") (.jarr rowsMixed) .nil)

/-- The mixed-absence message: some recognized fields present, others
absent, differing between rows. -/
def msgMixed : List (List Nat) :=
  [bytesOf "report.options",
   bytesOf "\x7b\"underlying\":\"SPX\",\"rows\":[\x7b\"strike\":1,\"call\":\x7b\"delta\":2\x7d,\"put\":\x7b\x7d\x7d,\x7b\x7d]\x7d"]

/-- An absent key makes `dict.get` return the supplied default. -/
theorem jget_of_not_hasKey : ∀ {kvs : JObj} {k : List Nat} {d : JVal},
    hasKey kvs k = false → jget kvs k d = d
  | .nil, _, _, _ => rfl
  | .cons k1 v t, k, d, h => by
    simp only [hasKey, Bool.or_eq_false_iff] at h
    simp only [jget, h.1, if_false, Bool.false_eq_true]
    exact jget_of_not_hasKey h.2

/-- When every row of the slice processes, the row loop prints exactly the
row lines and completes. -/
theorem emitRows_of_all : ∀ {rs : JArr}, jall rowOKb rs = true →
    emitRows rs = (rowsLines rs, true)
  | .nil, _ => rfl
  | .cons r t, h => by
    simp only [jall, Bool.and_eq_true] at h
    rcases Option.isSome_iff_exists.mp h.1 with ⟨ln, hln⟩
    simp only [emitRows, hln, emitRows_of_all h.2, rowsLines, rowLn, Option.getD_some]

/-- Row lines are one per row. -/
theorem rowsLines_length : ∀ rs : JArr, (rowsLines rs).length = jlen rs
  | .nil => rfl
  | .cons r t => by simp [rowsLines, jlen, rowsLines_length t]

/-- Taking at most `n` elements yields at most `n`. -/
theorem jlen_jtake_le : ∀ (n : Nat) (l : JArr), jlen (jtake n l) ≤ n
  | 0, l => by cases l <;> simp [jtake, jlen]
  | n+1, .nil => by simp [jtake, jlen]
  | n+1, .cons v t => by simpa [jtake, jlen] using jlen_jtake_le n t

/-- Characterization of one loop iteration on a message whose two frames
decode, whose payload is a record with an array `rows` value, and whose
first up-to-3 rows are processable: the exact lines of the script. -/
theorem processMsg_decoded (f0 f1 : List Nat) (rest : List (List Nat))
    (t s : List Nat) (kvs : JObj) (l : JArr)
    (h0 : utf8d f0 = some t) (h1 : utf8d f1 = some s)
    (h2 : jsonDecode s = some (.jobj kvs))
    (hr : jget kvs (cps "rows") (.jarr .nil) = .jarr l)
    (ha : jall rowOKb (jtake 3 l) = true) :
    processMsg (f0 :: f1 :: rest) =
      (topicLine t ::
        summaryLine (jget kvs (cps "underlying") (.jstr (cps "?")))
          (jget kvs (cps "expiry") (.jstr (cps "?"))) (jlen l) ::
        (rowsLines (jtake 3 l) ++
          (if 3 < jlen l then [moreLine (jlen l - 3)] else []) ++ [[]]), true) := by
  simp only [processMsg, topicOf, h0, h1, h2, processPayload, hr, pyLen, slice3,
    emitRows_of_all ha, List.cons_append, List.append_assoc]

/-- Placeholder summary: with both recognized fields absent, the defaults
render as `?`. -/
theorem summaryLine_placeholders (n : Nat) :
    summaryLine (.jstr (cps "?")) (.jstr (cps "?")) n =
      cps "Underlying: ?, Expiry: ?, Rows: " ++ natCps n := rfl

/-- Placeholder row line: absent strike and absent deltas render as `?`
and `-`. -/
theorem rowLine_placeholders :
    rowLineOf (.jstr (cps "?")) (.jstr (cps "-")) (.jstr (cps "-")) =
      cps "  Strike ?: Call delta=-, Put delta=-" := rfl

/-- The loop body reads only the first two frames of a message. -/
theorem processMsg_take2 : ∀ m : List (List Nat), processMsg m = processMsg (m.take 2)
  | [] => rfl
  | [_] => rfl
  | _ :: _ :: _ => rfl

/-- Whenever the topic resolves, the first printed line is the delimiter. -/
theorem processMsg_head (msg : List (List Nat)) (t : List Nat)
    (h : topicOf msg = some t) :
    (processMsg msg).1.head? = some (topicLine t) := by
  match msg with
  | [] =>
    simp only [topicOf, Option.some_inj] at h
    simp [processMsg, topicOf, ← h]
  | [f0] =>
    simp only [processMsg, topicOf] at h ⊢
    simp [h]
  | f0 :: f1 :: rest =>
    simp only [topicOf] at h
    simp only [processMsg, topicOf, h]
    split
    · rfl
    · split
      · rfl
      · split <;> rfl

/-- Messages followed by more events: while every message iteration
completes, the loop prints each message's lines and goes on. -/
theorem runLoop_msgs : ∀ (pre : List (List (List Nat))) (k : List Ev),
    (∀ fs ∈ pre, (processMsg fs).2 = true) →
    runLoop (pre.map Ev.m ++ k) =
      ((pre.map (fun fs => (processMsg fs).1)).flatten ++ (runLoop k).1, (runLoop k).2)
  | [], k, _ => by simp
  | fs :: pre, k, h => by
    have hfs : (processMsg fs).2 = true := h fs (List.mem_cons_self fs pre)
    have ih := runLoop_msgs pre k (fun g hg => h g (List.mem_cons_of_mem fs hg))
    rcases hm : processMsg fs with ⟨ls, ok⟩
    have hok : ok = true := by rw [hm] at hfs; exact hfs
    subst hok
    simp [runLoop, hm, ih, List.append_assoc]

/-- C1 (counterexample to the claim as stated): the payload
`{"rows":[1,2,3,4]}` decodes as a structured record whose `rows` sequence
has 4 > 3 elements, yet no `... and 1 more rows` line is printed — the
iteration dies with an uncaught `AttributeError` at `row.get` after the
summary line. -/
theorem c1_rows_of_nonrecords_cex :
    isRecord (jsonDecode (cps "\x7b\"rows\":[1,2,3,4]\x7d")) = true ∧
    decodedRowsLen (cps "\x7b\"rows\":[1,2,3,4]\x7d") = some 4 ∧
    processMsg msgNumRows =
      ([topicLine (cps "report.options"), cps "Underlying: ?, Expiry: ?, Rows: 4"], false) ∧
    moreLine 1 ∉ (processMsg msgNumRows).1 := by decide

/-- C1 (amended): for every received message whose frames 0 and 1 are
UTF-8 text and whose frame 1 decodes as a structured record whose `rows`
value is a sequence whose first up-to-3 elements are records with
record-valued (or absent) `call` and `put` fields, the printed summary's
row count equals the length of the `rows` sequence, at most the first 3
rows are printed individually, and when the sequence has more than 3
elements a `... and N more rows` line is printed with N = total − 3. -/
theorem c1_summary_rows_amended (f0 f1 : List Nat) (rest : List (List Nat))
    (t s : List Nat) (kvs : JObj) (l : JArr)
    (h0 : utf8d f0 = some t) (h1 : utf8d f1 = some s)
    (h2 : jsonDecode s = some (.jobj kvs))
    (hr : jget kvs (cps "rows") (.jarr .nil) = .jarr l)
    (ha : jall rowOKb (jtake 3 l) = true) :
    processMsg (f0 :: f1 :: rest) =
      (topicLine t ::
        summaryLine (jget kvs (cps "underlying") (.jstr (cps "?")))
          (jget kvs (cps "expiry") (.jstr (cps "?"))) (jlen l) ::
        (rowsLines (jtake 3 l) ++
          (if 3 < jlen l then [moreLine (jlen l - 3)] else []) ++ [[]]), true) ∧
    (rowsLines (jtake 3 l)).length ≤ 3 ∧
    (3 < jlen l → moreLine (jlen l - 3) ∈ (processMsg (f0 :: f1 :: rest)).1) := by
  have h := processMsg_decoded f0 f1 rest t s kvs l h0 h1 h2 hr ha
  refine ⟨h, ?_, ?_⟩
  · rw [rowsLines_length]; exact jlen_jtake_le 3 l
  · intro h3
    rw [h]
    simp [h3]

/-- Witness for C1 at a concrete five-empty-row message: the remainder
line reads `... and 2 more rows`. -/
theorem c1_summary_rows_amended_witness :
    processMsg msgFive =
      (topicLine (cps "report.options") ::
        summaryLine (jget kvsFive (cps "underlying") (.jstr (cps "?")))
          (jget kvsFive (cps "expiry") (.jstr (cps "?"))) (jlen rowsFive) ::
        (rowsLines (jtake 3 rowsFive) ++
          (if 3 < jlen rowsFive then [moreLine (jlen rowsFive - 3)] else []) ++ [[]]), true) ∧
    (rowsLines (jtake 3 rowsFive)).length ≤ 3 ∧
    (3 < jlen rowsFive → moreLine (jlen rowsFive - 3) ∈ (processMsg msgFive).1) :=
  c1_summary_rows_amended (bytesOf "report.options")
    (bytesOf "\x7b\"rows\":[\x7b\x7d,\x7b\x7d,\x7b\x7d,\x7b\x7d,\x7b\x7d]\x7d") []
    (cps "report.options")
    (cps "\x7b\"rows\":[\x7b\x7d,\x7b\x7d,\x7b\x7d,\x7b\x7d,\x7b\x7d]\x7d")
    kvsFive rowsFive rfl rfl rfl rfl rfl

/-- C2 (counterexample to the claim as stated): a frame 1 of the single
byte `0xFF` cannot be decoded as structured text, yet no error line and no
raw preview are printed — the uncaught `UnicodeDecodeError` terminates the
process (exit code 1) before the next message is processed. -/
theorem c2_invalid_utf8_cex :
    utf8d [0xFF] = none ∧
    processMsg msgBadUtf8 = ([topicLine (cps "report.options")], false) ∧
    runLoop [.m msgBadUtf8, .m [bytesOf "report.options"]] =
      ([topicLine (cps "report.options")], some 1) := by decide

/-- C2 (amended): for every received message whose frame 0 is UTF-8 text
and whose frame 1 is UTF-8 text that is not parseable as structured data,
the output for that message contains an error line and a raw-payload
preview truncated to at most 200 bytes, and the receive loop proceeds to
the next message without terminating the process. -/
theorem c2_decode_error_amended (f0 f1 : List Nat) (rest : List (List Nat))
    (t s : List Nat)
    (h0 : utf8d f0 = some t) (h1 : utf8d f1 = some s)
    (h2 : jsonDecode s = none) :
    processMsg (f0 :: f1 :: rest) =
      ([topicLine t, errLine, rawLine f1, []], true) ∧
    (f1.take 200).length ≤ 200 ∧
    ∀ evs, runLoop (.m (f0 :: f1 :: rest) :: evs) =
      ([topicLine t, errLine, rawLine f1, []] ++ (runLoop evs).1, (runLoop evs).2) := by
  have hmsg : processMsg (f0 :: f1 :: rest) = ([topicLine t, errLine, rawLine f1, []], true) := by
    simp only [processMsg, topicOf, h0, h1, h2]
  refine ⟨hmsg, ?_, ?_⟩
  · simp [List.length_take]
  · intro evs
    rcases hk : runLoop evs with ⟨ls2, e⟩
    simp [runLoop, hmsg, hk]

/-- Witness for C2 at a concrete unparseable payload. -/
theorem c2_decode_error_amended_witness :
    processMsg [bytesOf "report.options", bytesOf "oops"] =
      ([topicLine (cps "report.options"), errLine, rawLine (bytesOf "oops"), []], true) ∧
    ((bytesOf "oops").take 200).length ≤ 200 ∧
    ∀ evs, runLoop (.m [bytesOf "report.options", bytesOf "oops"] :: evs) =
      ([topicLine (cps "report.options"), errLine, rawLine (bytesOf "oops"), []] ++
        (runLoop evs).1, (runLoop evs).2) :=
  c2_decode_error_amended (bytesOf "report.options") (bytesOf "oops") []
    (cps "report.options") (cps "oops") rfl rfl rfl

/-- An index with a value is within the array's length. -/
theorem jidx_lt_jlen : ∀ {rs : JArr} {i : Nat} {row : JVal},
    jidx rs i = some row → i < jlen rs
  | .nil, _, _, h => by simp [jidx] at h
  | .cons v t, 0, _, _ => by simp [jlen]
  | .cons v t, i+1, row, h => by
    have := @jidx_lt_jlen t i row h
    simp only [jlen]
    omega

/-- The i-th row line is the line of the i-th row. -/
theorem rowsLines_getElem : ∀ {rs : JArr} {i : Nat} {row : JVal},
    jidx rs i = some row → (rowsLines rs)[i]? = some (rowLn row)
  | .nil, _, _, h => by simp [jidx] at h
  | .cons v t, 0, row, h => by
    simp only [jidx, Option.some_inj] at h
    subst h
    simp [rowsLines]
  | .cons v t, i+1, row, h => by
    simpa [rowsLines] using @rowsLines_getElem t i row h

/-- The row line of a row whose `call` and `put` resolve to records. -/
theorem rowLn_eq {rv cv pv : JObj}
    (hc : jget rv (cps "call") (.jobj .nil) = .jobj cv)
    (hp : jget rv (cps "put") (.jobj .nil) = .jobj pv) :
    rowLn (.jobj rv) =
      rowLineOf (jget rv (cps "strike") (.jstr (cps "?")))
        (jget cv (cps "delta") (.jstr (cps "-")))
        (jget pv (cps "delta") (.jstr (cps "-"))) := by
  simp [rowLn, rowEmit, hc, hp]

/-- Summary with the underlying slot defaulted: the placeholder `?` shows
regardless of the other slots. -/
theorem summaryLine_underlying_abs (e : JVal) (n : Nat) :
    summaryLine (.jstr (cps "?")) e n =
      cps "Underlying: ?, Expiry: " ++ pyStr e ++ (cps ", Rows: " ++ natCps n) := by
  simp only [summaryLine, pyStr, List.append_assoc]
  rfl

/-- Summary with the expiry slot defaulted. -/
theorem summaryLine_expiry_abs (u : JVal) (n : Nat) :
    summaryLine u (.jstr (cps "?")) n =
      cps "Underlying: " ++ pyStr u ++ (cps ", Expiry: ?, Rows: " ++ natCps n) := by
  simp only [summaryLine, pyStr, List.append_assoc]
  rfl

/-- Row line with the strike slot defaulted. -/
theorem rowLine_strike_abs (cd pd : JVal) :
    rowLineOf (.jstr (cps "?")) cd pd =
      cps "  Strike ?: Call delta=" ++ pyStr cd ++ (cps ", Put delta=" ++ pyStr pd) := by
  simp only [rowLineOf, pyStr, List.append_assoc]
  rfl

/-- Row line with the call delta slot defaulted. -/
theorem rowLine_call_abs (stk pd : JVal) :
    rowLineOf stk (.jstr (cps "-")) pd =
      cps "  Strike " ++ pyStr stk ++ (cps ": Call delta=-, Put delta=" ++ pyStr pd) := by
  simp only [rowLineOf, pyStr, List.append_assoc]
  rfl

/-- Row line with the put delta slot defaulted. -/
theorem rowLine_put_abs (stk cd : JVal) :
    rowLineOf stk cd (.jstr (cps "-")) =
      cps "  Strike " ++ pyStr stk ++
        (cps ": Call delta=" ++ pyStr cd ++ cps ", Put delta=-") := by
  simp only [rowLineOf, pyStr, List.append_assoc]
  rfl

/-- Whenever `len()` is defined on the `rows` value, the summary line is
printed at position 1, whatever happens afterwards. -/
theorem processMsg_summary (f0 f1 : List Nat) (rest : List (List Nat))
    (t s : List Nat) (kvs : JObj) (n : Nat)
    (h0 : utf8d f0 = some t) (h1 : utf8d f1 = some s)
    (h2 : jsonDecode s = some (.jobj kvs))
    (hn : pyLen (jget kvs (cps "rows") (.jarr .nil)) = some n) :
    (processMsg (f0 :: f1 :: rest)).1[1]? =
      some (summaryLine (jget kvs (cps "underlying") (.jstr (cps "?")))
        (jget kvs (cps "expiry") (.jstr (cps "?"))) n) := by
  rcases hsl : slice3 (jget kvs (cps "rows") (.jarr .nil)) with _ | rs
  · simp [processMsg, topicOf, h0, h1, h2, processPayload, hn, hsl]
  · rcases hem : emitRows rs with ⟨rls, ok⟩
    cases ok <;>
      simp [processMsg, topicOf, h0, h1, h2, processPayload, hn, hsl, hem]

/-- When the `rows` value is an array whose first up-to-3 rows all
process, the i-th of those rows has its line printed at position i + 2. -/
theorem processMsg_row_idx (f0 f1 : List Nat) (rest : List (List Nat))
    (t s : List Nat) (kvs : JObj) (l : JArr) (i : Nat) (row : JVal)
    (h0 : utf8d f0 = some t) (h1 : utf8d f1 = some s)
    (h2 : jsonDecode s = some (.jobj kvs))
    (hr : jget kvs (cps "rows") (.jarr .nil) = .jarr l)
    (ha : jall rowOKb (jtake 3 l) = true)
    (hi : jidx (jtake 3 l) i = some row) :
    (processMsg (f0 :: f1 :: rest)).1[i + 2]? = some (rowLn row) := by
  have h' : (processMsg (f0 :: f1 :: rest)).1 =
      topicLine t ::
        summaryLine (jget kvs (cps "underlying") (.jstr (cps "?")))
          (jget kvs (cps "expiry") (.jstr (cps "?"))) (jlen l) ::
        ((rowsLines (jtake 3 l) ++
          (if 3 < jlen l then [moreLine (jlen l - 3)] else [])) ++ [[]]) := by
    rw [processMsg_decoded f0 f1 rest t s kvs l h0 h1 h2 hr ha]
  have hlt : i < (rowsLines (jtake 3 l)).length := by
    rw [rowsLines_length]
    exact jidx_lt_jlen hi
  have hlt2 : i < ((rowsLines (jtake 3 l)) ++
      (if 3 < jlen l then [moreLine (jlen l - 3)] else [])).length := by
    rw [List.length_append]
    exact Nat.lt_of_lt_of_le hlt (Nat.le_add_right _ _)
  have e2 : i + 2 = (i + 1) + 1 := rfl
  rw [h', e2]
  simp only [List.getElem?_cons_succ]
  rw [List.getElem?_append_left hlt2, List.getElem?_append_left hlt]
  exact rowsLines_getElem hi

/-- C3 (confirmed): for every successfully decoded record payload, each
absent recognized field independently shows its placeholder in its own
output slot, whatever the other fields contain: an absent `underlying` or
`expiry` shows `?` in the summary (printed whenever the `rows` value has a
length, including absent or empty rows), and in any printed row — any
index i < 3 of an array `rows` whose first up-to-3 rows are records with
record-valued (or absent) `call`/`put` — an absent `strike` shows `?` and
an absent `call`/`put` `delta` shows `-`. -/
theorem c3_placeholders (f0 f1 : List Nat) (rest : List (List Nat))
    (t s : List Nat) (kvs : JObj)
    (h0 : utf8d f0 = some t) (h1 : utf8d f1 = some s)
    (h2 : jsonDecode s = some (.jobj kvs)) :
    (∀ n, pyLen (jget kvs (cps "rows") (.jarr .nil)) = some n →
      (hasKey kvs (cps "underlying") = false →
        (processMsg (f0 :: f1 :: rest)).1[1]? =
          some (cps "Underlying: ?, Expiry: " ++
            pyStr (jget kvs (cps "expiry") (.jstr (cps "?"))) ++
            (cps ", Rows: " ++ natCps n))) ∧
      (hasKey kvs (cps "expiry") = false →
        (processMsg (f0 :: f1 :: rest)).1[1]? =
          some (cps "Underlying: " ++
            pyStr (jget kvs (cps "underlying") (.jstr (cps "?"))) ++
            (cps ", Expiry: ?, Rows: " ++ natCps n)))) ∧
    (∀ (l : JArr) (i : Nat) (rv cv pv : JObj),
      jget kvs (cps "rows") (.jarr .nil) = .jarr l →
      jall rowOKb (jtake 3 l) = true →
      jidx (jtake 3 l) i = some (.jobj rv) →
      jget rv (cps "call") (.jobj .nil) = .jobj cv →
      jget rv (cps "put") (.jobj .nil) = .jobj pv →
      (hasKey rv (cps "strike") = false →
        (processMsg (f0 :: f1 :: rest)).1[i + 2]? =
          some (cps "  Strike ?: Call delta=" ++
            pyStr (jget cv (cps "delta") (.jstr (cps "-"))) ++
            (cps ", Put delta=" ++ pyStr (jget pv (cps "delta") (.jstr (cps "-")))))) ∧
      (hasKey cv (cps "delta") = false →
        (processMsg (f0 :: f1 :: rest)).1[i + 2]? =
          some (cps "  Strike " ++ pyStr (jget rv (cps "strike") (.jstr (cps "?"))) ++
            (cps ": Call delta=-, Put delta=" ++
              pyStr (jget pv (cps "delta") (.jstr (cps "-")))))) ∧
      (hasKey pv (cps "delta") = false →
        (processMsg (f0 :: f1 :: rest)).1[i + 2]? =
          some (cps "  Strike " ++ pyStr (jget rv (cps "strike") (.jstr (cps "?"))) ++
            (cps ": Call delta=" ++ pyStr (jget cv (cps "delta") (.jstr (cps "-"))) ++
              cps ", Put delta=-")))) := by
  constructor
  · intro n hn
    have hsum := processMsg_summary f0 f1 rest t s kvs n h0 h1 h2 hn
    constructor
    · intro hu
      rw [hsum, jget_of_not_hasKey hu, summaryLine_underlying_abs]
    · intro he
      rw [hsum, jget_of_not_hasKey he, summaryLine_expiry_abs]
  · intro l i rv cv pv hr ha hi hc hp
    have hline := processMsg_row_idx f0 f1 rest t s kvs l i (.jobj rv) h0 h1 h2 hr ha hi
    rw [rowLn_eq hc hp] at hline
    refine ⟨?_, ?_, ?_⟩
    · intro hs
      rw [hline, jget_of_not_hasKey hs, rowLine_strike_abs]
    · intro hcd
      rw [hline, jget_of_not_hasKey hcd, rowLine_call_abs]
    · intro hpd
      rw [hline, jget_of_not_hasKey hpd, rowLine_put_abs]

/-- Witness for C3 at the mixed-absence message with payload
`{"underlying":"SPX","rows":[{"strike":1,"call":{"delta":2},"put":{}},{}]}`:
the absent `expiry` shows `?` next to the present underlying, the absent
put `delta` of row 0 shows `-` next to its present strike and call delta,
and the absent strike of row 1 shows `?`. -/
theorem c3_placeholders_witness :
    (processMsg msgMixed).1[1]? =
      some (cps "Underlying: " ++
        pyStr (jget kvsMixed (cps "underlying") (.jstr (cps "?"))) ++
        (cps ", Expiry: ?, Rows: " ++ natCps 2)) ∧
    (processMsg msgMixed).1[2]? =
      some (cps "  Strike " ++ pyStr (jget rvMixed (cps "strike") (.jstr (cps "?"))) ++
        (cps ": Call delta=" ++ pyStr (jget cvMixed (cps "delta") (.jstr (cps "-"))) ++
          cps ", Put delta=-")) ∧
    (processMsg msgMixed).1[3]? =
      some (cps "  Strike ?: Call delta=" ++
        pyStr (jget JObj.nil (cps "delta") (.jstr (cps "-"))) ++
        (cps ", Put delta=" ++ pyStr (jget JObj.nil (cps "delta") (.jstr (cps "-"))))) := by
  have h := c3_placeholders (bytesOf "report.options")
    (bytesOf "\x7b\"underlying\":\"SPX\",\"rows\":[\x7b\"strike\":1,\"call\":\x7b\"delta\":2\x7d,\"put\":\x7b\x7d\x7d,\x7b\x7d]\x7d")
    [] (cps "report.options")
    (cps "\x7b\"underlying\":\"SPX\",\"rows\":[\x7b\"strike\":1,\"call\":\x7b\"delta\":2\x7d,\"put\":\x7b\x7d\x7d,\x7b\x7d]\x7d")
    kvsMixed rfl rfl rfl
  exact ⟨(h.1 2 rfl).2 rfl,
    (h.2 rowsMixed 0 rvMixed cvMixed JObj.nil rfl rfl rfl rfl rfl).2.2 rfl,
    (h.2 rowsMixed 1 JObj.nil JObj.nil JObj.nil rfl rfl rfl rfl rfl).1 rfl⟩

/-- C4 (confirmed): the spec scenario message produces exactly the topic
delimiter, the line `Underlying: SPX, Expiry: 2024-01-19, Rows: 1`, the
line `  Strike 4500: Call delta=0.5, Put delta=-0.5`, and the blank
separator; in particular the output contains the two claimed lines. -/
theorem c4_scenario_output :
    processMsg msgScenario =
      ([cps "=== TOPIC: report.options ===",
        cps "Underlying: SPX, Expiry: 2024-01-19, Rows: 1",
        cps "  Strike 4500: Call delta=0.5, Put delta=-0.5", []], true) ∧
    cps "Underlying: SPX, Expiry: 2024-01-19, Rows: 1" ∈ (processMsg msgScenario).1 ∧
    cps "  Strike 4500: Call delta=0.5, Put delta=-0.5" ∈ (processMsg msgScenario).1 := by
  decide

/-- C5 (counterexample to the claim as stated): on frames
`["report.options", "not json"]` the script prints
`  Raw: b'not json'...` — the Python repr of the bytes payload, with the
`b` prefix and quotes — so no output line contains the claimed text
`Raw: not json...`. -/
theorem c5_raw_preview_cex :
    processMsg msgNotJson =
      ([topicLine (cps "report.options"), errLine,
        cps "  Raw: b" ++ [0x27] ++ cps "not json" ++ [0x27] ++ cps "...", []], true) ∧
    (processMsg msgNotJson).1.any (fun ln => containsSeq (cps "Raw: not json...") ln) =
      false := by
  decide

/-- C5 (amended): on frames `["report.options", "not json"]` the output
shows a decode-error line followed by the raw-preview line
`  Raw: b'not json'...`, the Python bytes repr of the payload followed by
an ellipsis. -/
theorem c5_raw_preview_amended :
    processMsg msgNotJson =
      ([topicLine (cps "report.options"), errLine, rawLine (bytesOf "not json"), []],
        true) ∧
    rawLine (bytesOf "not json") =
      cps "  Raw: b" ++ [0x27] ++ cps "not json" ++ [0x27] ++ cps "..." := by
  decide

/-- C6 (confirmed): a message consisting of only a frame 0 of UTF-8 text
produces exactly the topic delimiter line and the blank separator — no
summary, row or error lines — and the iteration completes. -/
theorem c6_topic_only_frame (f0 t : List Nat) (h : utf8d f0 = some t) :
    processMsg [f0] = ([topicLine t, []], true) := by
  simp only [processMsg, topicOf, h]

/-- Witness for C6 at a one-frame message. -/
theorem c6_topic_only_frame_witness :
    processMsg [bytesOf "report.options"] =
      ([topicLine (cps "report.options"), []], true) :=
  c6_topic_only_frame (bytesOf "report.options") (cps "report.options") rfl

/-- C7 (confirmed): when an interrupt arrives at the blocking receive —
after any messages whose iterations completed — the loop terminates, a
blank line and the `Stopped.` notice are printed, and the process exits
with code 0. -/
theorem c7_interrupt_stops (pre : List (List (List Nat))) (evs : List Ev)
    (h : ∀ fs ∈ pre, (processMsg fs).2 = true) :
    runLoop (pre.map Ev.m ++ Ev.intr :: evs) =
      ((pre.map (fun fs => (processMsg fs).1)).flatten ++ [[], cps "Stopped."],
        some 0) := by
  rw [runLoop_msgs pre (Ev.intr :: evs) h]
  simp [runLoop]

/-- Witness for C7: one well-formed message, then an interrupt at the
receive. -/
theorem c7_interrupt_stops_witness :
    runLoop ([[bytesOf "report.options"]].map Ev.m ++ Ev.intr :: []) =
      (([[bytesOf "report.options"]].map (fun fs => (processMsg fs).1)).flatten ++
        [[], cps "Stopped."], some 0) :=
  c7_interrupt_stops [[bytesOf "report.options"]] [] (by decide)

/-- C8 (confirmed): the empty message is handled without faulting — the
delimiter is printed with an empty topic, followed by the blank line —
and for every nonempty message whose frame 0 is UTF-8 text the first
printed line is the delimiter carrying frame 0's text. -/
theorem c8_topic_extraction :
    processMsg [] = ([topicLine [], []], true) ∧
    topicLine [] = cps "=== TOPIC:  ===" ∧
    ∀ (f0 : List Nat) (rest : List (List Nat)) (t : List Nat),
      utf8d f0 = some t → (processMsg (f0 :: rest)).1.head? = some (topicLine t) :=
  ⟨rfl, rfl, fun f0 rest t h => processMsg_head (f0 :: rest) t h⟩

/-- Witness for C8 at a three-frame message. -/
theorem c8_topic_extraction_witness :
    (processMsg [bytesOf "report.options", bytesOf "not json", bytesOf "extra"]).1.head? =
      some (topicLine (cps "report.options")) :=
  c8_topic_extraction.2.2 (bytesOf "report.options")
    [bytesOf "not json", bytesOf "extra"] (cps "report.options") rfl

/-- C9 (confirmed): the endpoint is the lone optional positional argument:
absent (argv has at most the program name) it is `tcp://localhost:5556`,
present it is used unchanged. -/
theorem c9_cli_endpoint :
    chooseAddress [] = "tcp://localhost:5556" ∧
    (∀ prog : String, chooseAddress [prog] = "tcp://localhost:5556") ∧
    (∀ (prog a : String) (rest : List String), chooseAddress (prog :: a :: rest) = a) :=
  ⟨rfl, fun _ => rfl, fun _ _ _ => rfl⟩

/-- C10 (confirmed): the per-message output (and completion flag) is a
function of the first two frames only. -/
theorem c10_first_two_frames (m1 m2 : List (List Nat)) (h : m1.take 2 = m2.take 2) :
    processMsg m1 = processMsg m2 := by
  rw [processMsg_take2 m1, processMsg_take2 m2, h]

/-- Witness for C10: two messages agreeing on the first two frames but
differing beyond them produce identical output. -/
theorem c10_first_two_frames_witness :
    processMsg [bytesOf "report.options", bytesOf "not json", bytesOf "x"] =
      processMsg [bytesOf "report.options", bytesOf "not json", bytesOf "y", bytesOf "z"] :=
  c10_first_two_frames
    [bytesOf "report.options", bytesOf "not json", bytesOf "x"]
    [bytesOf "report.options", bytesOf "not json", bytesOf "y", bytesOf "z"] rfl
